import Mathlib

/-!
Shallow embedding of `src/libs/hbb_common/src/config.rs` (RustDesk fork
`albertoVieiraNeto/rustdesk`): the identity / configuration / trust-store
layer.  Rust `HashMap`s are modelled as association lists (first binding
wins on lookup, `insert` replaces the first binding in place or appends);
where the Rust code iterates over a `HashMap` (whose iteration order is
unspecified), the iteration order is taken as an explicit parameter that is
a permutation of the entries.  Machine integers are modelled as `Int`/`Nat`
with explicit truncation where overflow matters.  The external secret codec
(`encrypt_str_or_original`, not part of the sources) is passed in as an
abstract string function, and randomness (`rand::thread_rng`) as explicit
numeric arguments.
-/

/-- Association-list lookup modelling Rust `HashMap::get` (`none` = absent). -/
def mapGet (m : List (String × Bool)) (k : String) : Option Bool :=
  List.lookup k m

/-- Association-list insert modelling Rust `HashMap::insert`:
replace the first binding of the key in place, or append a new binding. -/
def mapInsert (m : List (String × Bool)) (k : String) (v : Bool) :
    List (String × Bool) :=
  match m with
  | [] => [(k, v)]
  | (k0, v0) :: rest =>
      if k0 = k then (k0, v) :: rest else (k0, v0) :: mapInsert rest k v

/-- The `Config` struct of `config.rs` (identity partition).  The keypair is
a pair of byte vectors `(sk, pk)`; `keys_confirmed` is the per-host trust
map. -/
structure Config where
  id : String
  enc_id : String
  password : String
  salt : String
  key_pair : List Nat × List Nat
  key_confirmed : Bool
  keys_confirmed : List (String × Bool)
deriving Repr, DecidableEq

/-- The all-default `Config` (Rust `Default`). -/
def Config.default : Config :=
  { id := "", enc_id := "", password := "", salt := "",
    key_pair := ([], []), key_confirmed := false, keys_confirmed := [] }

/-- `Config::store` (config.rs lines 339-345), viewed as the record that is
serialized to disk: the password and the live id are re-encrypted with the
abstract codec `enc`, the encrypted id is written into `enc_id`, and the
plaintext `id` field is blanked. -/
def Config.store_record (enc : String → String) (c : Config) : Config :=
  { c with
      password := enc c.password
      enc_id := enc c.id
      id := "" }

/-- `Config::set_id` (lines 524-531): no-op returning `false` (no disk
write) when the new id equals the current one; otherwise update and
report a write. -/
def Config.set_id (c : Config) (id : String) : Config × Bool :=
  if id = c.id then (c, false) else ({ c with id := id }, true)

/-- `Config::set_permanent_password` (lines 706-713): same no-op guard. -/
def Config.set_permanent_password (c : Config) (password : String) :
    Config × Bool :=
  if password = c.password then (c, false)
  else ({ c with password := password }, true)

/-- `Config::set_salt` (lines 719-726): same no-op guard. -/
def Config.set_salt (c : Config) (salt : String) : Config × Bool :=
  if salt = c.salt then (c, false) else ({ c with salt := salt }, true)

/-- `load_path` (lines 257-268): the result of `confy::load_path` is the
argument; on any error the default value is returned, so loading is total
and never fails. -/
def load_path {T : Type} (dflt : T) (loaded : Except String T) : T :=
  match loaded with
  | .ok config => config
  | .error _ => dflt

/-- `store_path` (lines 270-273): `Ok(confy::store_path(path, cfg)?)` -
the underlying I/O result is propagated to the caller unchanged. -/
def store_path (ioResult : Except String Unit) : Except String Unit :=
  match ioResult with
  | .ok u => .ok u
  | .error e => .error e

/-- `Config::get_host_key_confirmed` (lines 604-610): `true` exactly when
the per-host map binds the host to `true`; an absent binding is `false`. -/
def Config.get_host_key_confirmed (c : Config) (host : String) : Bool :=
  match mapGet c.keys_confirmed host with
  | some true => true
  | _ => false

/-- `Config::set_key_confirmed` (lines 592-602): no-op when the flag
already has the requested value; otherwise set it, clear the per-host map
when the new value is `false`, and store (the returned `Bool` reports the
disk write). -/
def Config.set_key_confirmed (c : Config) (v : Bool) : Config × Bool :=
  if c.key_confirmed = v then (c, false)
  else ({ c with
            key_confirmed := v
            keys_confirmed := if v then c.keys_confirmed else [] }, true)

/-- `Config::set_host_key_confirmed` (lines 612-619): no-op when the host
already has the requested confirmation value; otherwise insert it. -/
def Config.set_host_key_confirmed (c : Config) (host : String) (v : Bool) :
    Config × Bool :=
  if c.get_host_key_confirmed host = v then (c, false)
  else ({ c with keys_confirmed := mapInsert c.keys_confirmed host v }, true)

/-- The 32-character alphabet `CHARS` of config.rs (lines 59-62): digits
2-9 and the lowercase letters without `l` and `o`. -/
def CHARS : List Char :=
  "23456789abcdefghijkmnpqrstuvwxyz".data

/-- `Config::get_auto_password` (lines 581-586): draw `length` characters
from `CHARS`, indexing each random draw modulo the alphabet size.  The
random generator is modelled as the stream `rng` of its successive
draws. -/
def Config.get_auto_password (rng : Nat → Nat) (length : Nat) : String :=
  String.mk ((List.range length).map (fun i => CHARS.getD (rng i % CHARS.length) '2'))

/-- `Config::get_salt` (lines 728-735): return the stored salt, except
that an empty stored salt is replaced by a fresh 6-character auto password
which is persisted through `set_salt`.  Returns the salt, the updated
configuration and whether a disk write happened. -/
def Config.get_salt (rng : Nat → Nat) (c : Config) : String × Config × Bool :=
  if c.salt = "" then
    let salt := Config.get_auto_password rng 6
    let (c2, stored) := c.set_salt salt
    (salt, c2, stored)
  else (c.salt, c, false)

/-- State observed by `Config::get_key_pair` (lines 621-641): the
in-memory `KEY_PAIR` cell and the `key_pair` field of the on-disk config
partition read through `Config::load_`. -/
structure KeyPairState where
  cell : Option (List Nat × List Nat)
  disk : List Nat × List Nat
deriving Repr, DecidableEq

/-- One call of `Config::get_key_pair`.  The whole body runs under the
`KEY_PAIR` mutex, so concurrent calls linearize into a sequence of these
atomic steps.  `fresh` is the `(sk, pk)` byte pair `sign::gen_keypair()`
would produce if generation happens; the returned `Bool` records whether a
generation event occurred.  A generated pair is handed to a background
store of the config partition; that write cannot be observed by later
calls (the cell is already populated), so it is folded into this step. -/
def get_key_pair (fresh : List Nat × List Nat) (s : KeyPairState) :
    (List Nat × List Nat) × KeyPairState × Bool :=
  match s.cell with
  | some p => (p, s, false)
  | none =>
      if s.disk.1 = [] then (fresh, ⟨some fresh, fresh⟩, true)
      else (s.disk, ⟨some s.disk, s.disk⟩, false)

/-- A sequence of `get_key_pair` calls: the i-th call would generate
`freshes[i]` if it generates.  Returns the values handed to the callers,
the final state, and the number of generation events. -/
def run_get_key_pair (freshes : List (List Nat × List Nat))
    (s : KeyPairState) :
    List (List Nat × List Nat) × KeyPairState × Nat :=
  match freshes with
  | [] => ([], s, 0)
  | f :: fs =>
      let step := get_key_pair f s
      let rest := run_get_key_pair fs step.2.1
      (step.1 :: rest.1, rest.2.1, (if step.2.2 then 1 else 0) + rest.2.2)

/-- A populated cell is returned unchanged by every call: no generation,
no state change. -/
theorem get_key_pair_cached (p fresh : List Nat × List Nat)
    (s : KeyPairState) (hs : s.cell = some p) :
    get_key_pair fresh s = (p, s, false) := by
  cases s with
  | mk cell disk => cases hs; rfl

/-- A run starting from a populated cell returns the cached value to every
caller and generates nothing. -/
theorem run_get_key_pair_cached (p : List Nat × List Nat)
    (freshes : List (List Nat × List Nat)) (s : KeyPairState)
    (hs : s.cell = some p) :
    run_get_key_pair freshes s = (List.replicate freshes.length p, s, 0) := by
  induction freshes with
  | nil => rfl
  | cons f fs ih =>
      simp [run_get_key_pair, get_key_pair_cached p f s hs, ih,
        List.replicate_succ]

/-- Claim C2: (a) once the in-memory `KEY_PAIR` cell is populated it is
never overwritten - every later call returns the cached pair without
generating; (b) for any number of first-time callers (empty cell, empty
stored keypair), every caller receives the identical pair and exactly one
generation event occurs. -/
theorem get_key_pair_at_most_once :
    (∀ (s : KeyPairState) (p fresh : List Nat × List Nat),
      s.cell = some p → get_key_pair fresh s = (p, s, false)) ∧
    (∀ (f : List Nat × List Nat) (fs : List (List Nat × List Nat))
       (disk : List Nat × List Nat), disk.1 = [] →
      run_get_key_pair (f :: fs) ⟨none, disk⟩ =
        (List.replicate (fs.length + 1) f, ⟨some f, f⟩, 1)) := by
  constructor
  · exact fun s p fresh hs => get_key_pair_cached p fresh s hs
  · intro f fs disk hdisk
    have hstep : get_key_pair f ⟨none, disk⟩ = (f, ⟨some f, f⟩, true) := by
      simp [get_key_pair, hdisk]
    simp [run_get_key_pair, hstep,
      run_get_key_pair_cached f fs ⟨some f, f⟩ rfl, List.replicate_succ]

/-- Witness for C2: three first-time callers all obtain the first caller's
generated pair; one generation; a later call against the populated cell is
a pure cache hit. -/
theorem get_key_pair_at_most_once_witness :
    get_key_pair ([9], [9]) ⟨some ([1], [2]), ([1], [2])⟩ =
      (([1], [2]), ⟨some ([1], [2]), ([1], [2])⟩, false) ∧
    run_get_key_pair [([1], [2]), ([3], [4]), ([5], [6])] ⟨none, ([], [])⟩ =
      (List.replicate 3 ([1], [2]), ⟨some ([1], [2]), ([1], [2])⟩, 1) :=
  ⟨get_key_pair_at_most_once.1 ⟨some ([1], [2]), ([1], [2])⟩ ([1], [2]) ([9], [9]) rfl,
   get_key_pair_at_most_once.2 ([1], [2]) [([3], [4]), ([5], [6])] ([], []) rfl⟩

/-- The static candidate list `RENDEZVOUS_SERVERS` (lines 64-66). -/
def RENDEZVOUS_SERVERS : List String := ["tempremoteassistance.cosmospro.com.br"]

/-- `RENDEZVOUS_PORT` (line 68). -/
def RENDEZVOUS_PORT : Int := 21116

/-- The compiled-in `SERIAL` (line 29). -/
def SERIAL : Int := 3

/-- The state read by the rendezvous-server resolution: the `Config2`
options map, the `PROD_RENDEZVOUS_SERVER` global, the persisted
`Config2.rendezvous_server`, and the persisted `Config2.serial`. -/
structure ServerState where
  options : List (String × String)
  prodServer : String
  rendezvousServer : String
  serial : Int
deriving Repr, DecidableEq

/-- `Config::get_option` (lines 676-682): empty string when absent. -/
def getOption (st : ServerState) (k : String) : String :=
  (List.lookup k st.options).getD ""

/-- Rust `str::split(",")` over the characters of a string (the split is
modelled at the character-list level so that it evaluates by kernel
reduction; `acc` accumulates the current piece in reverse). -/
def splitCommaAux : List Char → List Char → List String
  | [], acc => [String.mk acc.reverse]
  | c :: rest, acc =>
      if c = ',' then String.mk acc.reverse :: splitCommaAux rest []
      else splitCommaAux rest (c :: acc)

/-- Split a string at commas (Rust `"a,b".split(",")` = `["a", "b"]`,
`"".split(",")` = `[""]`). -/
def splitComma (s : String) : List String :=
  splitCommaAux s.data []

/-- `Config::get_rendezvous_servers` (lines 476-497): custom override,
then production override, then - when the persisted serial exceeds the
compiled-in one - the comma-separated `rendezvous-servers` option filtered
to dot-containing entries, else the static candidate list. -/
def get_rendezvous_servers (st : ServerState) : List String :=
  let s := getOption st "custom-rendezvous-server"
  if s ≠ "" then [s]
  else
    let s := st.prodServer
    if s ≠ "" then [s]
    else
      let ss := (splitComma (getOption st "rendezvous-servers")).filter
        (fun x => x.data.contains '.')
      if SERIAL < st.serial ∧ ss ≠ [] then ss
      else RENDEZVOUS_SERVERS

/-- The port-appending tail of `get_rendezvous_server` (lines 470-472). -/
def appendDefaultPort (s : String) : String :=
  if s.data.contains ':' then s else s ++ ":" ++ toString RENDEZVOUS_PORT

/-- `Config::get_rendezvous_server` (lines 456-474): first non-empty of
custom option, production override, persisted server, head of
`get_rendezvous_servers()`; then the default port is appended when the
value carries none. -/
def get_rendezvous_server (st : ServerState) : String :=
  let r0 := getOption st "custom-rendezvous-server"
  let r1 := if r0 = "" then st.prodServer else r0
  let r2 := if r1 = "" then st.rendezvousServer else r1
  let r3 := if r2 = "" then (get_rendezvous_servers st).headD "" else r2
  appendDefaultPort r3

/-- The resolution order exactly as claim C5 words it: step (4) takes the
first entry of the *static* candidate list directly. -/
def get_rendezvous_server_claimed (st : ServerState) : String :=
  let r0 := getOption st "custom-rendezvous-server"
  let r1 := if r0 = "" then st.prodServer else r0
  let r2 := if r1 = "" then st.rendezvousServer else r1
  let r3 := if r2 = "" then RENDEZVOUS_SERVERS.headD "" else r2
  appendDefaultPort r3

/-- `Config::get_auto_id` on the android/ios targets (lines 560-567):
`rand::thread_rng().gen_range(1_000_000_000..2_000_000_000).to_string()`.
`draw` is the value produced by `gen_range`, which lies in the ten-digit
range `[1_000_000_000, 2_000_000_000)`. -/
def get_auto_id_mobile (draw : Nat) : Option String :=
  some (toString draw)

/-- `Config::get_auto_id` on the other targets (lines 568-579): fold the
MAC-address bytes `2..` into a `u32` via `id = (id << 8) | x` (truncated
at 32 bits), mask with `0x1FFFFFFF` (the low 29 bits, i.e. `% 2 ^ 29`),
and render in decimal; `none` when no MAC address is available. -/
def get_auto_id_desktop (mac : Option (List Nat)) : Option String :=
  match mac with
  | some bytes =>
      some (toString
        (((bytes.drop 2).foldl (fun id x => (id * 256 + x) % 2 ^ 32) 0) % 2 ^ 29))
  | none => none

/-- The `for _ in 0..3` retry loop of `Config::load` (lines 322-332) with
`n` attempts remaining: the first successful `get_auto_id` result wins. -/
def retry_auto_id : Nat → List (Option String) → Option String
  | 0, _ => none
  | _ + 1, [] => none
  | n + 1, a :: rest =>
      match a with
      | some newId => some newId
      | none => retry_auto_id n rest

/-- The id-recovery tail of `Config::load`: when `id_valid` the recovered
id is kept untouched; otherwise the bounded retry loop runs over the
successive `get_auto_id` results (`attempts`) and the first success is
adopted, marking the record dirty; when every attempt fails the id is left
exactly as loaded.  Returns the final id and the dirty flag contributed by
this step. -/
def load_recover_id (idValid : Bool) (loadedId : String)
    (attempts : List (Option String)) : String × Bool :=
  if idValid then (loadedId, false)
  else
    match retry_auto_id 3 attempts with
    | some newId => (newId, true)
    | none => (loadedId, false)

/-- The `PeerInfoSerde` struct of config.rs (lines 167-175). -/
structure PeerInfoSerde where
  username : String
  hostname : String
  platform : String
deriving Repr, DecidableEq

/-- A window geometry `Size = (i32, i32, i32, i32)` (line 41). -/
abbrev Size := Int × Int × Int × Int

/-- The `PeerConfig` struct of config.rs (lines 123-165). -/
structure PeerConfig where
  password : List Nat
  size : Size
  size_ft : Size
  size_pf : Size
  view_style : String
  image_quality : String
  custom_image_quality : List Int
  show_remote_cursor : Bool
  lock_after_session_end : Bool
  privacy_mode : Bool
  port_forwards : List (Int × String × Int)
  direct_failures : Int
  disable_audio : Bool
  disable_clipboard : Bool
  enable_file_transfer : Bool
  show_quality_monitor : Bool
  options : List (String × String)
  info : PeerInfoSerde
  transfer : List String × List String
deriving Repr, DecidableEq

/-- One enumerated peer file as `PeerConfig::peers` sees it after the
`.toml`-file filter and the `PeerConfig::load` of each file: the file stem
(peer id), the last-modified time, and the loaded record. -/
abbrev PeerEntry := String × Nat × PeerConfig

/-- The descending-by-modified-time order used by
`peers.sort_unstable_by(|a, b| b.1.cmp(&a.1))` (line 870). -/
def peerNewer (a b : PeerEntry) : Prop := b.2.1 ≤ a.2.1

instance : DecidableRel peerNewer := fun a b => Nat.decLe b.2.1 a.2.1

instance : IsTotal PeerEntry peerNewer := ⟨fun a b => Nat.le_total b.2.1 a.2.1⟩

instance : IsTrans PeerEntry peerNewer :=
  ⟨fun _ _ _ hab hbc => le_trans hbc hab⟩

/-- `PeerConfig::peers` (lines 843-875) over the enumerated directory
`entries`: records with an empty `info.platform` have their backing file
deleted (second component) and are excluded; the kept records are sorted
most-recently-modified first (first component). -/
def peers (entries : List PeerEntry) : List PeerEntry × List PeerEntry :=
  (List.insertionSort peerNewer
     (entries.filter (fun e => e.2.2.info.platform != "")),
   entries.filter (fun e => e.2.2.info.platform == ""))

/-- A `PeerConfig` that is default except for its platform field (used to
instantiate concrete peer directories). -/
def samplePeer (platform : String) : PeerConfig :=
  { password := [], size := (0, 0, 0, 0), size_ft := (0, 0, 0, 0),
    size_pf := (0, 0, 0, 0), view_style := "", image_quality := "",
    custom_image_quality := [], show_remote_cursor := false,
    lock_after_session_end := false, privacy_mode := false,
    port_forwards := [], direct_failures := 0, disable_audio := false,
    disable_clipboard := false, enable_file_transfer := false,
    show_quality_monitor := false, options := [],
    info := { username := "", hostname := "", platform := platform },
    transfer := ([], []) }

/-- `i64::MAX`, the initial value of the `delay` local of
`update_latency`. -/
def i64Max : Int := 9223372036854775807

/-- The state touched by `Config::update_latency`: the `ONLINE` latency
map (association list in insertion order) and the persisted
`Config2.rendezvous_server`. -/
structure RendezvousState where
  online : List (String × Int)
  rendezvousServer : String
deriving Repr, DecidableEq

/-- `ONLINE.lock().unwrap().insert(host, latency)`: replace the existing
binding in place or append a new one. -/
def insertOnline : List (String × Int) → String → Int → List (String × Int)
  | [], host, latency => [(host, latency)]
  | (k, v) :: rest, host, latency =>
      if k = host then (k, latency) :: rest
      else (k, v) :: insertOnline rest host latency

/-- The scan loop of `update_latency` (lines 505-512) over the map entries
in iteration order `iter`: the running `(host, delay)` pair starts at
`("", i64::MAX)` and is replaced by every entry with a strictly positive
latency strictly below the running delay. -/
def scanMin (iter : List (String × Int)) : String × Int :=
  iter.foldl (fun acc p => if 0 < p.2 ∧ p.2 < acc.2 then p else acc)
    ("", i64Max)

/-- `Config::update_latency` (lines 503-522): record the sample, scan the
map in iteration order `iter` (Rust `HashMap` iteration order is
unspecified, so it is a parameter: any permutation of the entries), and
persist the found host when the sentinel was beaten and the found host
differs from the persisted one.  Returns the new state and whether a
store happened. -/
def update_latency (host : String) (latency : Int)
    (st : RendezvousState) (iter : List (String × Int)) :
    RendezvousState × Bool :=
  let online2 := insertOnline st.online host latency
  let found := scanMin iter
  if found.1 ≠ "" then
    if found.1 ≠ st.rendezvousServer then (⟨online2, found.1⟩, true)
    else (⟨online2, st.rendezvousServer⟩, false)
  else (⟨online2, st.rendezvousServer⟩, false)

/-- Claim C1: every record written by `Config::store` has its plaintext
`id` field equal to the empty string and its `enc_id` field equal to the
encryption of the live id, for every in-memory `Config` and every codec. -/
theorem store_blanks_plaintext_id (enc : String → String) (c : Config) :
    (Config.store_record enc c).id = "" ∧
    (Config.store_record enc c).enc_id = enc c.id := by
  constructor <;> rfl

/-- Claim C8: calling `set_id`, `set_permanent_password` or `set_salt` with
the currently stored value performs no disk write and leaves the
configuration unchanged. -/
theorem setters_noop_on_equal (c : Config) (v : String) :
    (v = c.id → Config.set_id c v = (c, false)) ∧
    (v = c.password → Config.set_permanent_password c v = (c, false)) ∧
    (v = c.salt → Config.set_salt c v = (c, false)) := by
  refine ⟨fun h => ?_, fun h => ?_, fun h => ?_⟩ <;>
    simp [Config.set_id, Config.set_permanent_password, Config.set_salt, h]

/-- Witness for C8 at a concrete configuration. -/
theorem setters_noop_on_equal_witness :
    Config.set_id { Config.default with id := "42" } "42" =
      ({ Config.default with id := "42" }, false) ∧
    Config.set_permanent_password Config.default "" =
      (Config.default, false) ∧
    Config.set_salt { Config.default with salt := "s" } "s" =
      ({ Config.default with salt := "s" }, false) :=
  ⟨(setters_noop_on_equal { Config.default with id := "42" } "42").1 rfl,
   (setters_noop_on_equal Config.default "").2.1 rfl,
   (setters_noop_on_equal { Config.default with salt := "s" } "s").2.2 rfl⟩

/-- Claim C3 counterexample: the claim quantifies over every state of the
identity record, but `set_key_confirmed(false)` early-returns when the
flag is already `false`.  Starting from the default record (whose
`key_confirmed` is `false`), confirming host `"h"` via
`set_host_key_confirmed` and then calling `set_key_confirmed(false)`
leaves `get_host_key_confirmed "h"` equal to `true`, not `false`. -/
theorem set_key_confirmed_false_countereg :
    (Config.set_key_confirmed
        (Config.set_host_key_confirmed Config.default "h" true).1 false).1.get_host_key_confirmed
        "h" = true := by
  decide

/-- Claim C3 amended: when the overall flag is currently `true` (so the
call actually transitions it), `set_key_confirmed(false)` clears the whole
per-host map, and `get_host_key_confirmed` subsequently returns `false`
for every host. -/
theorem set_key_confirmed_false_cascade (c : Config) (host : String)
    (hc : c.key_confirmed = true) :
    (Config.set_key_confirmed c false).1.keys_confirmed = [] ∧
    (Config.set_key_confirmed c false).1.get_host_key_confirmed host = false := by
  simp [Config.set_key_confirmed, hc, Config.get_host_key_confirmed, mapGet]

/-- Witness for the amended C3 at a concrete confirmed-state record. -/
theorem set_key_confirmed_false_cascade_witness :
    (Config.set_key_confirmed
        { Config.default with
            key_confirmed := true
            keys_confirmed := [("h", true), ("k", true)] } false).1.keys_confirmed = [] ∧
    (Config.set_key_confirmed
        { Config.default with
            key_confirmed := true
            keys_confirmed := [("h", true), ("k", true)] } false).1.get_host_key_confirmed
        "h" = false :=
  set_key_confirmed_false_cascade
    { Config.default with
        key_confirmed := true
        keys_confirmed := [("h", true), ("k", true)] } "h" rfl

/-- Every character drawn by `get_auto_password` comes from `CHARS`. -/
theorem charsGetD_mem (k : Nat) : CHARS.getD k '2' ∈ CHARS := by
  by_cases hk : k < CHARS.length
  · rw [List.getD_eq_getElem CHARS '2' hk]
    exact List.getElem_mem hk
  · rw [List.getD_eq_default CHARS '2' (Nat.le_of_not_lt hk)]
    decide

/-- Claim C10: `get_salt` returns a non-empty stored salt unchanged with
no disk write; when the stored salt is empty it returns a freshly
generated 6-character salt drawn from the 32-character alphabet `CHARS`,
persisted into the configuration (a disk write occurs). -/
theorem get_salt_spec (rng : Nat → Nat) (c : Config) :
    (c.salt ≠ "" → Config.get_salt rng c = (c.salt, c, false)) ∧
    (c.salt = "" →
      Config.get_salt rng c =
        (Config.get_auto_password rng 6,
         { c with salt := Config.get_auto_password rng 6 }, true) ∧
      (Config.get_auto_password rng 6).length = 6 ∧
      ∀ ch ∈ (Config.get_auto_password rng 6).data, ch ∈ CHARS) := by
  have hlen : (Config.get_auto_password rng 6).length = 6 := by
    simp [Config.get_auto_password, String.length]
  have hne : Config.get_auto_password rng 6 ≠ "" := by
    intro h
    rw [h] at hlen
    simp at hlen
  constructor
  · intro h
    simp [Config.get_salt, h]
  · intro h
    refine ⟨?_, hlen, ?_⟩
    · rw [← h] at hne
      simp [Config.get_salt, h, Config.set_salt, h ▸ hne]
    · intro ch hch
      simp only [Config.get_auto_password, List.mem_map] at hch
      obtain ⟨i, -, rfl⟩ := hch
      exact charsGetD_mem _

/-- Witness for C10: both branches at concrete inputs (the identity
stream as random source draws `"234567"`). -/
theorem get_salt_spec_witness :
    Config.get_salt (fun i => i) { Config.default with salt := "abc" } =
      ("abc", { Config.default with salt := "abc" }, false) ∧
    (Config.get_salt (fun i => i) Config.default =
        (Config.get_auto_password (fun i => i) 6,
         { Config.default with salt := Config.get_auto_password (fun i => i) 6 }, true) ∧
      (Config.get_auto_password (fun i => i) 6).length = 6 ∧
      ∀ ch ∈ (Config.get_auto_password (fun i => i) 6).data, ch ∈ CHARS) :=
  ⟨(get_salt_spec (fun i => i) { Config.default with salt := "abc" }).1 (by decide),
   (get_salt_spec (fun i => i) Config.default).2 rfl⟩

/-- Claim C5 counterexample: with no custom override, no production
override and no persisted server, but a persisted serial (4) exceeding the
compiled-in serial (3) and a dot-containing "rendezvous-servers" option,
the code resolves to the option list's first entry, not to the first entry
of the static candidate list that the claim names as step (4). -/
theorem get_rendezvous_server_countereg :
    get_rendezvous_server
        ⟨[("rendezvous-servers", "x.example")], "", "", 4⟩ =
      "x.example:21116" ∧
    get_rendezvous_server_claimed
        ⟨[("rendezvous-servers", "x.example")], "", "", 4⟩ =
      "tempremoteassistance.cosmospro.com.br:21116" ∧
    get_rendezvous_server ⟨[("rendezvous-servers", "x.example")], "", "", 4⟩ ≠
      get_rendezvous_server_claimed
        ⟨[("rendezvous-servers", "x.example")], "", "", 4⟩ := by
  refine ⟨by decide, by decide, by decide⟩

/-- Claim C5 amended: `get_rendezvous_server` returns the first non-empty
value among (1) the custom option, (2) the production override, (3) the
persisted server, (4) the head of the *computed* candidate list
`get_rendezvous_servers()` - with the default port appended when the
chosen value has no port separator - and whenever the persisted serial
does not exceed the compiled-in serial the computed list's head is the
static list's first entry, so the resolution claimed by the spec holds. -/
theorem get_rendezvous_server_precedence (st : ServerState) :
    (getOption st "custom-rendezvous-server" ≠ "" →
      get_rendezvous_server st =
        appendDefaultPort (getOption st "custom-rendezvous-server")) ∧
    (getOption st "custom-rendezvous-server" = "" → st.prodServer ≠ "" →
      get_rendezvous_server st = appendDefaultPort st.prodServer) ∧
    (getOption st "custom-rendezvous-server" = "" → st.prodServer = "" →
      st.rendezvousServer ≠ "" →
      get_rendezvous_server st = appendDefaultPort st.rendezvousServer) ∧
    (getOption st "custom-rendezvous-server" = "" → st.prodServer = "" →
      st.rendezvousServer = "" →
      get_rendezvous_server st =
        appendDefaultPort ((get_rendezvous_servers st).headD "")) ∧
    (st.serial ≤ SERIAL →
      get_rendezvous_server st = get_rendezvous_server_claimed st) := by
  refine ⟨fun h0 => ?_, fun h0 h1 => ?_, fun h0 h1 h2 => ?_,
    fun h0 h1 h2 => ?_, fun hserial => ?_⟩
  · simp [get_rendezvous_server, h0]
  · simp [get_rendezvous_server, h0, h1]
  · simp [get_rendezvous_server, h0, h1, h2]
  · simp [get_rendezvous_server, h0, h1, h2]
  · have hns : ¬ SERIAL < st.serial := not_lt.mpr hserial
    by_cases h0 : getOption st "custom-rendezvous-server" = ""
    · by_cases h1 : st.prodServer = ""
      · by_cases h2 : st.rendezvousServer = ""
        · simp [get_rendezvous_server, get_rendezvous_server_claimed,
            get_rendezvous_servers, h0, h1, h2, hns]
        · simp [get_rendezvous_server, get_rendezvous_server_claimed,
            h0, h1, h2]
      · simp [get_rendezvous_server, get_rendezvous_server_claimed, h0, h1]
    · simp [get_rendezvous_server, get_rendezvous_server_claimed, h0]

/-- Witness for the amended C5: the custom override wins with its port
appended, and at serial 3 the resolution matches the claimed chain. -/
theorem get_rendezvous_server_precedence_witness :
    get_rendezvous_server
        ⟨[("custom-rendezvous-server", "my.server")], "p", "q", 4⟩ =
      appendDefaultPort "my.server" ∧
    get_rendezvous_server ⟨[], "", "", 3⟩ =
      get_rendezvous_server_claimed ⟨[], "", "", 3⟩ :=
  ⟨(get_rendezvous_server_precedence
      ⟨[("custom-rendezvous-server", "my.server")], "p", "q", 4⟩).1 (by decide),
   (get_rendezvous_server_precedence ⟨[], "", "", 3⟩).2.2.2.2 (by decide)⟩

/-- Claim C7 counterexample: on the non-mobile targets the generated id is
derived from the MAC address, not sampled from a ten-digit range: with MAC
bytes `[0, 0, 0, 0, 0, 1]` the generated id is `"1"`, the decimal numeral
of 1, which lies outside the range `[1_000_000_000, 2_000_000_000)`. -/
theorem get_auto_id_countereg :
    get_auto_id_desktop (some [0, 0, 0, 0, 0, 1]) = some (toString 1) ∧
    ¬ 1000000000 ≤ 1 := by
  exact ⟨by decide, by decide⟩

/-- `retry_auto_id` inspects at most its first `n` attempts. -/
theorem retry_auto_id_take (n : Nat) (l : List (Option String)) :
    retry_auto_id n l = retry_auto_id n (l.take n) := by
  induction n generalizing l with
  | zero => rfl
  | succ n ih =>
      cases l with
      | nil => rfl
      | cons a rest =>
          cases a with
          | some s => rfl
          | none => simpa [retry_auto_id] using ih rest

/-- Claim C7 amended: when no valid id is recovered, a new id is
generated - on mobile targets the decimal numeral of a number drawn from
the ten-digit range `[1_000_000_000, 2_000_000_000)`, on other targets the
decimal numeral of a MAC-derived number below `2 ^ 29` (`none` when no MAC
is available); generation is retried over at most 3 attempts with the
first success adopted; if all 3 attempts fail the configuration keeps the
id it loaded (empty on a fresh install) and loading completes. -/
theorem load_auto_id_bounded_retry (draw : Nat) (loadedId : String)
    (attempts : List (Option String)) (s : String) :
    (1000000000 ≤ draw → draw < 2000000000 →
      ∃ n, get_auto_id_mobile draw = some (toString n) ∧
        1000000000 ≤ n ∧ n < 2000000000) ∧
    (∀ bytes : List Nat, ∃ n, n < 2 ^ 29 ∧
      get_auto_id_desktop (some bytes) = some (toString n)) ∧
    get_auto_id_desktop none = none ∧
    retry_auto_id 3 attempts = retry_auto_id 3 (attempts.take 3) ∧
    (retry_auto_id 3 attempts = some s →
      load_recover_id false loadedId attempts = (s, true)) ∧
    (retry_auto_id 3 attempts = none →
      load_recover_id false loadedId attempts = (loadedId, false)) := by
  refine ⟨fun h1 h2 => ⟨draw, rfl, h1, h2⟩, fun bytes => ?_, rfl,
    retry_auto_id_take 3 attempts, fun h => ?_, fun h => ?_⟩
  · exact ⟨_, Nat.mod_lt _ (by norm_num), rfl⟩
  · simp [load_recover_id, h]
  · simp [load_recover_id, h]

/-- Witness for the amended C7: a concrete mobile draw, a second-attempt
success, and a run whose three inspected attempts all fail (the fourth,
successful attempt is ignored and the loaded id is kept). -/
theorem load_auto_id_bounded_retry_witness :
    (∃ n, get_auto_id_mobile 1500000000 = some (toString n) ∧
      1000000000 ≤ n ∧ n < 2000000000) ∧
    load_recover_id false "L" [none, some "99"] = ("99", true) ∧
    load_recover_id false "L" [none, none, none, some "x"] = ("L", false) :=
  ⟨(load_auto_id_bounded_retry 1500000000 "L" [] "").1 (by decide) (by decide),
   (load_auto_id_bounded_retry 1500000000 "L" [none, some "99"] "99").2.2.2.2.1
     (by decide),
   (load_auto_id_bounded_retry 1500000000 "L"
      [none, none, none, some "x"] "").2.2.2.2.2 (by decide)⟩

/-- Claim C9: `load_path` returns the loaded value on success and the
default value on any I/O or decode error (loading is a total function and
never fails), while `store_path` propagates the underlying I/O result,
error included, to the caller. -/
theorem load_default_store_propagates {T : Type} (dflt c : T)
    (e : String) (r : Except String Unit) :
    load_path dflt (.error e) = dflt ∧
    load_path dflt (.ok c) = c ∧
    store_path r = r := by
  refine ⟨rfl, rfl, ?_⟩
  cases r <;> rfl

/-- Claim C6: `peers()` returns exactly the enumerated records whose
`info.platform` is non-empty, ordered most-recently-modified first, and
every enumerated record with an empty platform is excluded from the
result and has its backing file deleted. -/
theorem peers_prunes_and_sorts (entries : List PeerEntry) :
    List.Perm (peers entries).1
      (entries.filter (fun e => e.2.2.info.platform != "")) ∧
    List.Sorted peerNewer (peers entries).1 ∧
    ∀ e ∈ entries,
      (e.2.2.info.platform = "" →
        e ∈ (peers entries).2 ∧ e ∉ (peers entries).1) ∧
      (e.2.2.info.platform ≠ "" →
        e ∈ (peers entries).1 ∧ e ∉ (peers entries).2) := by
  have hperm := List.perm_insertionSort peerNewer
    (entries.filter (fun e => e.2.2.info.platform != ""))
  refine ⟨hperm, List.sorted_insertionSort peerNewer _, ?_⟩
  intro e he
  constructor
  · intro hp
    refine ⟨by simp [peers, List.mem_filter, he, hp], fun hmem => ?_⟩
    have hf := hperm.mem_iff.mp hmem
    rw [List.mem_filter] at hf
    simp [hp] at hf
  · intro hp
    refine ⟨hperm.mem_iff.mpr (by simp [List.mem_filter, he, hp]), fun hmem => ?_⟩
    simp only [peers, List.mem_filter, beq_iff_eq] at hmem
    exact hp hmem.2

/-- Witness for C6 on a concrete three-file peer directory with one stale
(empty-platform) record. -/
theorem peers_prunes_and_sorts_witness :
    List.Perm
      (peers [("a", 1, samplePeer "linux"), ("c", 3, samplePeer ""),
              ("b", 5, samplePeer "windows")]).1
      ([("a", 1, samplePeer "linux"), ("c", 3, samplePeer ""),
        ("b", 5, samplePeer "windows")].filter
        (fun e => e.2.2.info.platform != "")) ∧
    List.Sorted peerNewer
      (peers [("a", 1, samplePeer "linux"), ("c", 3, samplePeer ""),
              ("b", 5, samplePeer "windows")]).1 ∧
    (("c", 3, samplePeer "") ∈
        (peers [("a", 1, samplePeer "linux"), ("c", 3, samplePeer ""),
                ("b", 5, samplePeer "windows")]).2 ∧
      ("c", 3, samplePeer "") ∉
        (peers [("a", 1, samplePeer "linux"), ("c", 3, samplePeer ""),
                ("b", 5, samplePeer "windows")]).1) ∧
    (("b", 5, samplePeer "windows") ∈
        (peers [("a", 1, samplePeer "linux"), ("c", 3, samplePeer ""),
                ("b", 5, samplePeer "windows")]).1 ∧
      ("b", 5, samplePeer "windows") ∉
        (peers [("a", 1, samplePeer "linux"), ("c", 3, samplePeer ""),
                ("b", 5, samplePeer "windows")]).2) :=
  ⟨(peers_prunes_and_sorts _).1, (peers_prunes_and_sorts _).2.1,
   ((peers_prunes_and_sorts _).2.2 ("c", 3, samplePeer "") (by decide)).1 rfl,
   ((peers_prunes_and_sorts _).2.2 ("b", 5, samplePeer "windows")
      (by decide)).2 (by decide)⟩

/-- The scan of `update_latency` never increases the running delay. -/
theorem scanFold_le (l : List (String × Int)) (acc : String × Int) :
    (l.foldl (fun acc p => if 0 < p.2 ∧ p.2 < acc.2 then p else acc) acc).2 ≤
      acc.2 := by
  induction l generalizing acc with
  | nil => exact le_refl _
  | cons q rest ih =>
      simp only [List.foldl_cons]
      by_cases h : 0 < q.2 ∧ q.2 < acc.2
      · rw [if_pos h]
        exact le_trans (ih q) (le_of_lt h.2)
      · rw [if_neg h]
        exact ih acc

/-- The scan result is a lower bound of every strictly positive sample. -/
theorem scanFold_min (l : List (String × Int)) (acc : String × Int) :
    ∀ p ∈ l, 0 < p.2 →
      (l.foldl (fun acc p => if 0 < p.2 ∧ p.2 < acc.2 then p else acc) acc).2 ≤
        p.2 := by
  induction l generalizing acc with
  | nil => intro p hp; exact absurd hp (List.not_mem_nil p)
  | cons q rest ih =>
      intro p hp hpos
      simp only [List.foldl_cons]
      rcases List.mem_cons.mp hp with rfl | hmem
      · by_cases h : 0 < p.2 ∧ p.2 < acc.2
        · rw [if_pos h]
          exact scanFold_le rest p
        · rw [if_neg h]
          have hle : acc.2 ≤ p.2 := le_of_not_lt (fun hlt => h ⟨hpos, hlt⟩)
          exact le_trans (scanFold_le rest acc) hle
      · exact ih _ p hmem hpos

/-- The scan result is the initial accumulator or one of the samples. -/
theorem scanFold_mem (l : List (String × Int)) (acc : String × Int) :
    l.foldl (fun acc p => if 0 < p.2 ∧ p.2 < acc.2 then p else acc) acc = acc ∨
      l.foldl (fun acc p => if 0 < p.2 ∧ p.2 < acc.2 then p else acc) acc ∈ l := by
  induction l generalizing acc with
  | nil => exact Or.inl rfl
  | cons q rest ih =>
      simp only [List.foldl_cons]
      by_cases h : 0 < q.2 ∧ q.2 < acc.2
      · rw [if_pos h]
        rcases ih q with heq | hmem
        · exact Or.inr (by rw [heq]; exact List.mem_cons_self q rest)
        · exact Or.inr (List.mem_cons_of_mem q hmem)
      · rw [if_neg h]
        rcases ih acc with heq | hmem
        · exact Or.inl heq
        · exact Or.inr (List.mem_cons_of_mem q hmem)

/-- The scan keeps the running delay strictly positive. -/
theorem scanFold_pos (l : List (String × Int)) (acc : String × Int)
    (hacc : 0 < acc.2) :
    0 < (l.foldl (fun acc p => if 0 < p.2 ∧ p.2 < acc.2 then p else acc) acc).2 := by
  induction l generalizing acc with
  | nil => exact hacc
  | cons q rest ih =>
      simp only [List.foldl_cons]
      by_cases h : 0 < q.2 ∧ q.2 < acc.2
      · rw [if_pos h]
        exact ih q h.1
      · rw [if_neg h]
        exact ih acc hacc

/-- Claim C4 counterexample: ties among equal minima are broken by the
map's iteration order, not by insertion order.  With the map obtained by
inserting `("A", 30)` then `("B", 30)`, a legal iteration order that lists
`"B"` first makes the code persist `"B"`, while the insertion-order scan
(what the claim predicts) selects `("A", 30)`. -/
theorem update_latency_countereg :
    List.Perm [("B", (30 : Int)), ("A", 30)]
      (insertOnline [("A", 30)] "B" 30) ∧
    (update_latency "B" 30 ⟨[("A", 30)], ""⟩
        [("B", 30), ("A", 30)]).1.rendezvousServer = "B" ∧
    scanMin (insertOnline [("A", 30)] "B" 30) = ("A", 30) := by
  refine ⟨?_, by decide, by decide⟩
  have he : insertOnline [("A", (30 : Int))] "B" 30 = [("A", 30), ("B", 30)] := by
    decide
  rw [he]
  exact List.Perm.swap ("A", 30) ("B", 30) []

/-- Claim C4 amended: after `update_latency` the sample is always recorded
(positive or not); when the scan over the map (in any iteration order)
beats the sentinel, the found host carries a strictly positive latency
that is minimal among all strictly positive recorded samples, it becomes
the persisted preferred server, and a disk write happens exactly when it
differs from the currently persisted one; when the sentinel survives
(no admissible sample) nothing is persisted. -/
theorem update_latency_spec (host : String) (latency : Int)
    (st : RendezvousState) (iter : List (String × Int))
    (hiter : List.Perm iter (insertOnline st.online host latency)) :
    (update_latency host latency st iter).1.online =
        insertOnline st.online host latency ∧
    ((scanMin iter).1 ≠ "" →
      scanMin iter ∈ insertOnline st.online host latency ∧
      0 < (scanMin iter).2 ∧
      (∀ p ∈ insertOnline st.online host latency, 0 < p.2 →
        (scanMin iter).2 ≤ p.2) ∧
      (update_latency host latency st iter).1.rendezvousServer =
        (scanMin iter).1 ∧
      ((update_latency host latency st iter).2 = true ↔
        (scanMin iter).1 ≠ st.rendezvousServer)) ∧
    ((scanMin iter).1 = "" →
      (update_latency host latency st iter).1.rendezvousServer =
        st.rendezvousServer ∧
      (update_latency host latency st iter).2 = false) := by
  refine ⟨?_, fun hne => ?_, fun hemp => ?_⟩
  · simp only [update_latency]
    split_ifs <;> rfl
  · have hmem : scanMin iter ∈ iter := by
      rcases scanFold_mem iter ("", i64Max) with heq | hm
      · exact absurd (congrArg Prod.fst heq) hne
      · exact hm
    refine ⟨hiter.mem_iff.mp hmem, scanFold_pos iter ("", i64Max) (by decide),
      fun p hp hpos => scanFold_min iter ("", i64Max) p (hiter.mem_iff.mpr hp) hpos,
      ?_, ?_⟩
    · by_cases hd : (scanMin iter).1 ≠ st.rendezvousServer
      · simp [update_latency, hne, hd]
      · push_neg at hd
        simp [update_latency, hne, hd]
    · by_cases hd : (scanMin iter).1 ≠ st.rendezvousServer
      · simp [update_latency, hne, hd]
      · push_neg at hd
        simp [update_latency, hne, hd]
  · simp [update_latency, hemp]

/-- Witness for the amended C4: the spec's own example - samples
`A: 50ms, B: 30ms, C: -1ms` with `B` persisted, then a new sample
`A: 10ms` - makes `A` the recorded minimum and the newly persisted
server. -/
theorem update_latency_spec_witness :
    (update_latency "A" 10 ⟨[("A", 50), ("B", 30), ("C", -1)], "B"⟩
        [("A", 10), ("B", 30), ("C", -1)]).1.online =
      insertOnline [("A", 50), ("B", 30), ("C", -1)] "A" 10 ∧
    (update_latency "A" 10 ⟨[("A", 50), ("B", 30), ("C", -1)], "B"⟩
        [("A", 10), ("B", 30), ("C", -1)]).1.rendezvousServer =
      (scanMin [("A", 10), ("B", 30), ("C", -1)]).1 := by
  have h := update_latency_spec "A" 10 ⟨[("A", 50), ("B", 30), ("C", -1)], "B"⟩
    [("A", 10), ("B", 30), ("C", -1)] (by
      have he : insertOnline [("A", (50 : Int)), ("B", 30), ("C", -1)] "A" 10 =
          [("A", 10), ("B", 30), ("C", -1)] := by decide
      rw [he])
  exact ⟨h.1, (h.2.1 (by decide)).2.2.2.1⟩
